import Mathlib

/-!
Shallow embedding of `peak_parameters.py` (erget/peak_parameterizer).

The script is Python 2 code (GRASS 6 era), which matters in two places:
`/` on two ints is floor division, and `csv.writer` over a binary file is
the Python 2 idiom.  External GIS calls (grass.run_command and friends) are
side effects on the toolkit and are not part of the data model; the pure
bookkeeping around them (axis parsing, the three-axis results container,
the summarize index, CSV/stdout rendering, temporary map naming) is
embedded here.  Fallible Python operations (list.index raising ValueError,
indexing raising IndexError, arithmetic on a non-number raising TypeError,
`raise(Exception)`) are modelled with Option, where `none` means the
operation raises.
-/

set_option autoImplicit false

namespace PeakParameterizer

universe u

/-- Dynamic Python values that flow through the reporting code: ints
(counts, axis values), floats (only relevant to `setField`), strings. -/
inductive PyVal where
  | int : Int → PyVal
  | float : ℚ → PyVal
  | str : String → PyVal
deriving DecidableEq

/-- One cell of the results matrix.  `ResultsContainer.__init__` fills every
cell with the empty list `[]`; `add_error` overwrites a cell with an int
count. -/
inductive Cell where
  | empty : Cell
  | int : Int → Cell
deriving DecidableEq

/-- Python `str.ljust(width)`: pad on the right with spaces up to `width`
(no-op when the string is already at least that long). -/
def pyLjust (s : String) (width : Nat) : String :=
  s ++ String.mk (List.replicate (width - s.length) ' ')

/-- Python `str(...)` on the values the reporting code stringifies.  Only
ints and strings ever reach stringification in the modelled paths (floats
make `setField` raise first), so the float clause is never exercised. -/
def pyStr : PyVal → String
  | PyVal.int n => toString n
  | PyVal.float q => toString q
  | PyVal.str s => s

/-- Python `str(...)` on a results cell as written by `csv.writer`:
an unpopulated cell is the empty list, whose string form is `[]`. -/
def cellStr : Cell → String
  | Cell.empty => "[]"
  | Cell.int n => toString n

/-- Python `list.index(a)`: position of the first element equal to `a`,
`none` when absent (Python raises ValueError). -/
def index? {α : Type u} [DecidableEq α] : List α → α → Option Nat
  | [], _ => none
  | x :: xs, a => if x = a then some 0 else (index? xs a).map (· + 1)

/-- Apply a fallible operation to every element in order; `none` as soon as
one application fails (the Python loop raises there). -/
def mapOpt {α : Type u} {β : Type u} (f : α → Option β) : List α → Option (List β)
  | [] => some []
  | a :: as =>
    match f a, mapOpt f as with
    | some b, some bs => some (b :: bs)
    | _, _ => none

/-- The five boolean flags the GRASS parser hands to the script:
t (true positives), f (false positives), n (false negatives),
s (summarize), l (leave morphometric maps in mapset). -/
structure Flags where
  t : Bool
  f : Bool
  n : Bool
  s : Bool
  l : Bool
deriving DecidableEq

/-- The keys of the flag dictionary whose value is truthy, in iteration
order.  Python 2 dict iteration order is unspecified; the result of
`parse_error_values` is independent of that order (every handled key is
moved to the end in the fixed order t, f, n, s, and `l` is the only
unhandled key), so a fixed order is used here. -/
def flagTrueKeys (flags : Flags) : List String :=
  (if flags.t then ["t"] else []) ++
  (if flags.f then ["f"] else []) ++
  (if flags.n then ["n"] else []) ++
  (if flags.s then ["s"] else []) ++
  (if flags.l then ["l"] else [])

/-- `parse_error_values`: collects the truthy flag keys, then replaces each
of t, f, n, s (when present) by its readable label, `list.remove` followed
by `append`.  The `l` key has no replacement clause and passes through
untouched. -/
def parse_error_values (flags : Flags) : List String :=
  let error_values := flagTrueKeys flags
  let ev1 := if "t" ∈ error_values then
    error_values.erase "t" ++ ["true positives"] else error_values
  let ev2 := if "f" ∈ ev1 then ev1.erase "f" ++ ["false positives"] else ev1
  let ev3 := if "n" ∈ ev2 then ev2.erase "n" ++ ["false negatives"] else ev2
  if "s" ∈ ev3 then ev3.erase "s" ++ ["summarize"] else ev3

/-- Temporary raster name in `find_peaks`:
`feature_map = str(window) + underscore + str(slope_threshold)`. -/
def feature_map_name (window slope_threshold : Int) : String :=
  toString window ++ "_" ++ toString slope_threshold

/-- Temporary raster name `peak_raster = feature_map + "_peaks"`. -/
def peak_raster_name (window slope_threshold : Int) : String :=
  feature_map_name window slope_threshold ++ "_peaks"

/-- Vector region-set name `peak_vectors = "p_" + peak_raster`. -/
def peak_vectors_name (window slope_threshold : Int) : String :=
  "p_" ++ peak_raster_name window slope_threshold

/-- `PeakAnalyst.find_peaks`: the nested sweep loop appends
`[window, slope_threshold, peak_vectors]` for every window size (outer
loop) and slope threshold (inner loop); the GIS calls themselves are
external effects and contribute nothing to the collected list. -/
def find_peaks (window_sizes slope_thresholds : List Int) :
    List (Int × Int × String) :=
  window_sizes.flatMap fun window =>
    slope_thresholds.map fun slope_threshold =>
      (window, slope_threshold, peak_vectors_name window slope_threshold)

/-- The three-axis results container: parallel axis lists plus the dense
matrix `window[window_index][slope_index][error_index]`.  The slope axis
holds dynamic values because `Exporter.stdout` mutates it in place from
ints to strings. -/
structure ResultsContainer where
  window_sizes : List Int
  slope_thresholds : List PyVal
  error_values : List String
  window : List (List (List Cell))
deriving DecidableEq

/-- `ResultsContainer.__init__`: stores the axes and builds the dense
matrix, every cell initialized to the empty list. -/
def mkResultsContainer (window_sizes slope_thresholds : List Int)
    (error_values : List String) : ResultsContainer :=
  { window_sizes := window_sizes
    slope_thresholds := slope_thresholds.map PyVal.int
    error_values := error_values
    window := List.replicate window_sizes.length
      (List.replicate slope_thresholds.length
        (List.replicate error_values.length Cell.empty)) }

/-- `ResultsContainer.add_error`: resolves each axis value with
`list.index` (ValueError when absent), then assigns
`window[window_index][slope_index][error_index] = error_value`
(IndexError when the matrix is smaller than the axes claim). -/
def add_error (c : ResultsContainer) (window_size slope_threshold : Int)
    (error_type : String) (error_value : Int) : Option ResultsContainer := do
  let window_index ← index? c.window_sizes window_size
  let slope_index ← index? c.slope_thresholds (PyVal.int slope_threshold)
  let error_index ← index? c.error_values error_type
  let row ← c.window.get? window_index
  let cells ← row.get? slope_index
  if error_index < cells.length then
    let newWindow := c.window.set window_index
      (row.set slope_index (cells.set error_index (Cell.int error_value)))
    some { c with window := newWindow }
  else none

/-- Reading a cell back at the positions the axis values resolve to,
mirroring the indexing scheme documented on `ResultsContainer`
(`window[window_sizes.index(w)][slope_thresholds.index(s)][error_values.index(e)]`). -/
def readCell (c : ResultsContainer) (window_size slope_threshold : Int)
    (error_type : String) : Option Cell := do
  let window_index ← index? c.window_sizes window_size
  let slope_index ← index? c.slope_thresholds (PyVal.int slope_threshold)
  let error_index ← index? c.error_values error_type
  let row ← c.window.get? window_index
  let cells ← row.get? slope_index
  cells.get? error_index

/-- `Exporter.summarize`: sensitivity minus false-peak ratio, with both
denominators replaced by 1 when `tp + fn == 0`.  The counts are Python 2
ints, so `/` is floor division (`Int.fdiv`). -/
def summarize (tp fp fn : Int) : Int :=
  if tp + fn = 0 then Int.fdiv tp 1 - Int.fdiv fp 1
  else Int.fdiv tp (tp + fn) - Int.fdiv fp (tp + fn)

/-- Reference definition following the words of the spec: the error index
in exact arithmetic, `tp/(tp+fn) - fp/(tp+fn)` over the rationals, with
the same zero-denominator fallback. -/
def summarize_spec (tp fp fn : ℚ) : ℚ :=
  if tp + fn = 0 then tp / 1 - fp / 1
  else tp / (tp + fn) - fp / (tp + fn)

/-- One entry of a CSV data row in `Exporter.exportToCsv`: for the
summarize tag, the three counts are read from the cell list and combined
(`none` when a read is out of range, IndexError, or a cell still holds the
initial empty list, TypeError in the arithmetic); for the three plain tags
the raw cell is appended and later stringified by `csv.writer`; any other
tag hits `raise(Exception)`. -/
def errEntry (errTag : String) (tp_index fp_index fn_index : Nat)
    (cells : List Cell) : Option String :=
  if errTag = "summarize" then
    match cells.get? tp_index, cells.get? fp_index, cells.get? fn_index with
    | some (Cell.int tp), some (Cell.int fp), some (Cell.int fn) =>
      some (toString (summarize tp fp fn))
    | _, _, _ => none
  else if errTag = "true positives" then (cells.get? tp_index).map cellStr
  else if errTag = "false positives" then (cells.get? fp_index).map cellStr
  else if errTag = "false negatives" then (cells.get? fn_index).map cellStr
  else none

/-- The per-threshold entries of one CSV data row (the inner loop of
`exportToCsv`, iterating over the stored matrix row). -/
def rowEntries (errTag : String) (tp_index fp_index fn_index : Nat) :
    List (List Cell) → Option (List String)
  | [] => some []
  | cells :: rest =>
    match errEntry errTag tp_index fp_index fn_index cells,
        rowEntries errTag tp_index fp_index fn_index rest with
    | some e, some es => some (e :: es)
    | _, _ => none

/-- The CSV data rows (the outer loop of `exportToCsv`): one row per
matrix row, starting with `window_sizes[window]` (IndexError when the
matrix has more rows than the window-size axis). -/
def csvDataRows (errTag : String) (tp_index fp_index fn_index : Nat) :
    List Int → List (List (List Cell)) → Option (List (List String))
  | _, [] => some []
  | [], _ :: _ => none
  | wsize :: wrest, row :: rest =>
    match rowEntries errTag tp_index fp_index fn_index row,
        csvDataRows errTag tp_index fp_index fn_index wrest rest with
    | some es, some rs => some ((toString wsize :: es) :: rs)
    | _, _ => none

/-- The CSV header row built by `exportToCsv`: copy the slope-threshold
axis, give each entry a `threshold_` label, then reverse, append the
`window_size` label and reverse back. -/
def csvHeader (c : ResultsContainer) : List String :=
  ((c.slope_thresholds.map fun t => "threshold_" ++ pyStr t).reverse
    ++ ["window_size"]).reverse

/-- `Exporter.exportToCsv` as the list of rows written to the file: the
positions of the three base error kinds are resolved first (ValueError
when one of them was not requested), then the header and one data row per
matrix row are written. -/
def exportToCsv (c : ResultsContainer) (errTag : String) :
    Option (List (List String)) := do
  let tp_index ← index? c.error_values "true positives"
  let fp_index ← index? c.error_values "false positives"
  let fn_index ← index? c.error_values "false negatives"
  let rows ← csvDataRows errTag tp_index fp_index fn_index
    c.window_sizes c.window
  pure (csvHeader c :: rows)

/-- The export path built in `Exporter.__init__`:
`(export_directory + error_flag + ".csv").replace(" ", "_")`. -/
def csvFileName (directory error_flag : String) : String :=
  String.map (fun ch => if ch = ' ' then '_' else ch)
    (directory ++ error_flag ++ ".csv")

/-- `Exporter.__init__` appends a slash to the export directory unless its
last character already is one. -/
def normDir (directory : String) : String :=
  if directory.endsWith "/" then directory else directory ++ "/"

/-- The CSV-writing loop of `Exporter.__init__`: one
`(path, rows)` pair per entry of the parsed error-value list, `none` as
soon as one export raises. -/
def exportAll (c : ResultsContainer) (directory : String) :
    List String → Option (List (String × List (List String)))
  | [] => some []
  | error_flag :: rest =>
    match exportToCsv c error_flag, exportAll c directory rest with
    | some csv, some more =>
      some ((csvFileName directory error_flag, csv) :: more)
    | _, _ => none

/-- The CSV phase of `Exporter.__init__`: normalize the directory
(`export_directory[-1]` raises IndexError on an empty string), re-parse
the error kinds from the flags and export each one.  The trailing
`self.stdout()` call is modelled separately by `stdout_run`. -/
def exporter_csvFiles (c : ResultsContainer) (flags : Flags)
    (export_directory : String) :
    Option (List (String × List (List String))) :=
  if export_directory = "" then none
  else exportAll c (normDir export_directory) (parse_error_values flags)

/-- `Exporter.stdout.setField`: a float is rounded to two places and then
sliced with `arg[:6]`, but slicing a float raises TypeError in Python, so
every float argument makes the call raise (`none`); every other argument
is stringified and left-justified to the requested width (7 at every call
site, the Python default). -/
def setField (arg : PyVal) (width : Nat) : Option String :=
  match arg with
  | PyVal.float _ => none
  | _ => some (pyLjust (pyStr arg) width)

/-- Whether one cell list survives the summarize-and-print step of
`Exporter.stdout`: the three counts must be present and ints (otherwise
IndexError or TypeError). -/
def summCellOk (tp_index fp_index fn_index : Nat) (cells : List Cell) :
    Bool :=
  match cells.get? tp_index, cells.get? fp_index, cells.get? fn_index with
  | some (Cell.int _), some (Cell.int _), some (Cell.int _) => true
  | _, _, _ => false

/-- Whether the row loop of `Exporter.stdout` completes: each matrix row
needs its window size (`window_sizes[window]`, IndexError when the matrix
is longer than the axis) and every cell list must summarize cleanly. -/
def stdoutRowsOk (tp_index fp_index fn_index : Nat) :
    List Int → List (List (List Cell)) → Bool
  | _, [] => true
  | [], _ :: _ => false
  | _ :: wrest, row :: rest =>
    row.all (summCellOk tp_index fp_index fn_index) &&
      stdoutRowsOk tp_index fp_index fn_index wrest rest

/-- `Exporter.stdout` restricted to its effect on the container (the
printed text itself is plain console output): the three error-kind
positions are resolved, then the slope-threshold axis list, aliased by the
local `thresholds` variable, is mutated in place, each element replaced by
`setField(element)`, reversed, extended with a seven-space and a
three-space spacer and reversed back; finally the row loop must complete.
Success returns the container as the Python object stands afterwards. -/
def stdout_run (c : ResultsContainer) : Option ResultsContainer := do
  let tp_index ← index? c.error_values "true positives"
  let fp_index ← index? c.error_values "false positives"
  let fn_index ← index? c.error_values "false negatives"
  let padded ← mapOpt (fun t => setField t 7) c.slope_thresholds
  if stdoutRowsOk tp_index fp_index fn_index c.window_sizes c.window then
    let newThresholds :=
      PyVal.str "   " :: PyVal.str "       " :: padded.map PyVal.str
    pure { c with slope_thresholds := newThresholds }
  else none

/-! Helper lemmas about the list operations used in the embedding. -/

theorem index?_eq_none_of_not_mem {α : Type u} [DecidableEq α]
    {l : List α} {a : α} (h : a ∉ l) : index? l a = none := by
  induction l with
  | nil => rfl
  | cons x xs ih =>
    have hne : x ≠ a := by
      intro hxa
      exact h (by rw [← hxa]; exact List.mem_cons_self x xs)
    rw [index?, if_neg hne, ih (fun hm => h (List.mem_cons_of_mem x hm))]
    rfl

theorem index?_lt_of_mem {α : Type u} [DecidableEq α]
    {l : List α} {a : α} (h : a ∈ l) :
    ∃ i, index? l a = some i ∧ i < l.length := by
  induction l with
  | nil => simp at h
  | cons x xs ih =>
    rw [index?]
    by_cases hx : x = a
    · exact ⟨0, by simp [hx], by simp⟩
    · have hm : a ∈ xs := by
        rcases List.mem_cons.mp h with h1 | h1
        · exact absurd h1.symm hx
        · exact h1
      obtain ⟨i, hi, hlt⟩ := ih hm
      refine ⟨i + 1, by simp [hx, hi], by simpa using Nat.succ_lt_succ hlt⟩

theorem get?_set_self {α : Type u} (l : List α) (i : Nat) (v : α)
    (h : i < l.length) : (l.set i v).get? i = some v := by
  induction l generalizing i with
  | nil => simp at h
  | cons x xs ih =>
    cases i with
    | zero => rfl
    | succ n => exact ih n (by simpa using h)

theorem get?_replicate_of_lt {α : Type u} (x : α) {n i : Nat} (h : i < n) :
    (List.replicate n x).get? i = some x := by
  induction n generalizing i with
  | zero => simp at h
  | succ m ih =>
    cases i with
    | zero => rfl
    | succ k => exact ih (Nat.lt_of_succ_lt_succ h)

theorem mkResultsContainer_window_sizes (ws st : List Int)
    (ev : List String) : (mkResultsContainer ws st ev).window_sizes = ws :=
  rfl

theorem mkResultsContainer_slope_thresholds (ws st : List Int)
    (ev : List String) :
    (mkResultsContainer ws st ev).slope_thresholds = st.map PyVal.int :=
  rfl

theorem mkResultsContainer_error_values (ws st : List Int)
    (ev : List String) : (mkResultsContainer ws st ev).error_values = ev :=
  rfl

theorem mkResultsContainer_window (ws st : List Int) (ev : List String) :
    (mkResultsContainer ws st ev).window =
      List.replicate ws.length (List.replicate st.length
        (List.replicate ev.length Cell.empty)) :=
  rfl

/-! Claim theorems. -/

/-- C1: the spec claims `summarize` computes the exact-arithmetic index
`tp/(tp+fn) - fp/(tp+fn)` (0.9 at the example cell (10, 1, 0) and about
0.667 at (8, 2, 1)); the code runs under Python 2, whose `/` on ints is
floor division, so it returns 1 and 0 at those cells instead of the
documented proportions. -/
theorem summarize_integer_division_bug :
    summarize 10 1 0 = 1 ∧ summarize_spec 10 1 0 = 9 / 10 ∧
      ((9 : ℚ) / 10 ≠ 1) ∧ summarize 8 2 1 = 0 ∧
      summarize_spec 8 2 1 = 2 / 3 ∧ ((2 : ℚ) / 3 ≠ 0) := by
  refine ⟨by decide, ?_, by norm_num, by decide, ?_, by norm_num⟩
  · rw [summarize_spec]
    norm_num
  · rw [summarize_spec]
    norm_num

/-- C2: when no true peaks exist (tp = fn = 0) both denominators fall back
to 1 and `summarize` returns `-fp` without dividing by zero; this holds
even under the Python 2 integer division actually performed, since
dividing by 1 is exact. -/
theorem summarize_no_true_peaks (fp : Int) (h : 0 ≤ fp) :
    summarize 0 fp 0 = -fp := by
  rw [summarize, if_pos (by norm_num), Int.zero_fdiv, Int.fdiv_one]
  omega

/-- Witness for C2 at fp = 5. -/
theorem summarize_no_true_peaks_witness :
    (0 : Int) ≤ 5 ∧ summarize 0 5 0 = -5 :=
  ⟨by decide, summarize_no_true_peaks 5 (by decide)⟩

/-- C7: the spec claims `setField` turns every float into a truncated,
left-justified fixed-width string; the code rounds the float and then
slices the float object itself (`arg[:6]`, missing the str conversion),
which raises TypeError in Python, so the call fails for every float
argument, contradicting the docstring of `setField` itself. -/
theorem setField_float_raises (q : ℚ) : setField (PyVal.float q) 7 = none :=
  rfl

/-- C8: the spec claims `parse_error_values` yields only labels from the
four error kinds; the code iterates every truthy flag and only translates
t, f, n, s, so the leave-maps flag `l` passes through untranslated and
ends up on the error-kind axis (where the exporter later hits
`raise(Exception)` on it). -/
theorem parse_error_values_leaks_leave_flag :
    parse_error_values
        { t := false, f := false, n := false, s := false, l := true } =
      ["l"] ∧
    "l" ∉ ["true positives", "false positives", "false negatives",
      "summarize"] := by
  decide

/-- C3: on a container built from distinct axis values, writing a count
through `add_error` for any (window, threshold, error-kind) triple present
on the axes succeeds, and reading the cell back at the positions those
axis values resolve to returns exactly the written count. -/
theorem add_error_roundtrip (ws st : List Int) (ev : List String)
    (hw : ws.Nodup) (hs : st.Nodup) (he : ev.Nodup)
    (w s : Int) (e : String) (v : Int)
    (hmw : w ∈ ws) (hms : s ∈ st) (hme : e ∈ ev) :
    ∃ c', add_error (mkResultsContainer ws st ev) w s e v = some c' ∧
      readCell c' w s e = some (Cell.int v) := by
  obtain ⟨i, hi, hilt⟩ := index?_lt_of_mem hmw
  have hms' : PyVal.int s ∈ st.map PyVal.int := List.mem_map_of_mem _ hms
  obtain ⟨j, hj, hjlt⟩ := index?_lt_of_mem hms'
  obtain ⟨k, hk, hklt⟩ := index?_lt_of_mem hme
  have hjlt' : j < st.length := by simpa using hjlt
  have hwin : (mkResultsContainer ws st ev).window.get? i =
      some (List.replicate st.length
        (List.replicate ev.length Cell.empty)) := by
    rw [mkResultsContainer_window]
    exact get?_replicate_of_lt _ hilt
  have hrow : (List.replicate st.length
      (List.replicate ev.length Cell.empty)).get? j =
      some (List.replicate ev.length Cell.empty) :=
    get?_replicate_of_lt _ hjlt'
  have hklen : k < (List.replicate ev.length Cell.empty).length := by
    simpa using hklt
  have hnewwin : ((mkResultsContainer ws st ev).window.set i
      ((List.replicate st.length (List.replicate ev.length Cell.empty)).set j
        ((List.replicate ev.length Cell.empty).set k
          (Cell.int v)))).length = ws.length := by
    simp [mkResultsContainer_window]
  refine ⟨{ mkResultsContainer ws st ev with
    window := (mkResultsContainer ws st ev).window.set i
      ((List.replicate st.length (List.replicate ev.length Cell.empty)).set j
        ((List.replicate ev.length Cell.empty).set k (Cell.int v))) },
    ?_, ?_⟩
  · rw [add_error]
    simp only [mkResultsContainer_window_sizes,
      mkResultsContainer_slope_thresholds, mkResultsContainer_error_values,
      hi, hj, hk, Option.bind_eq_bind', Option.some_bind', hwin, hrow,
      if_pos hklen]
  · rw [readCell]
    simp only [mkResultsContainer_window_sizes,
      mkResultsContainer_slope_thresholds, mkResultsContainer_error_values,
      hi, hj, hk, Option.bind_eq_bind', Option.some_bind']
    rw [get?_set_self _ _ _
      (by simpa [mkResultsContainer_window] using hilt)]
    rw [Option.some_bind']
    rw [get?_set_self _ _ _ (by simpa using hjlt'), Option.some_bind']
    rw [get?_set_self _ _ _ (by simpa using hklt)]

/-- Witness for C3: axes ([3, 5], [1, 2], [true positives]), writing 9 at
(3, 2, true positives) and reading it back. -/
theorem add_error_roundtrip_witness :
    ∃ c', add_error (mkResultsContainer [3, 5] [1, 2] ["true positives"])
        3 2 "true positives" 9 = some c' ∧
      readCell c' 3 2 "true positives" = some (Cell.int 9) :=
  add_error_roundtrip [3, 5] [1, 2] ["true positives"]
    (by decide) (by decide) (by decide) 3 2 "true positives" 9
    (by decide) (by decide) (by decide)

/-- C4: `add_error` with a window size, slope threshold or error kind that
is absent from the corresponding axis sequence raises (the `list.index`
lookup raises ValueError), producing no updated container, so nothing is
inserted and no cell is written. -/
theorem add_error_absent_fails (c : ResultsContainer) (w s : Int)
    (e : String) (v : Int)
    (h : w ∉ c.window_sizes ∨ PyVal.int s ∉ c.slope_thresholds ∨
      e ∉ c.error_values) :
    add_error c w s e v = none := by
  rcases h with h1 | h1 | h1
  · rw [add_error, index?_eq_none_of_not_mem h1]
    rfl
  · rw [add_error, index?_eq_none_of_not_mem h1]
    cases index? c.window_sizes w <;> rfl
  · rw [add_error, index?_eq_none_of_not_mem h1]
    cases index? c.window_sizes w <;>
      cases index? c.slope_thresholds (PyVal.int s) <;> rfl

/-- Witness for C4: window size 7 is absent from the axis [3]. -/
theorem add_error_absent_fails_witness :
    add_error (mkResultsContainer [3] [1] ["true positives"]) 7 1
      "true positives" 5 = none :=
  add_error_absent_fails _ 7 1 "true positives" 5 (Or.inl (by decide))

theorem get?_eq_some_getD {α : Type u} (l : List α) (d : α) {i : Nat}
    (h : i < l.length) : l.get? i = some (l.getD i d) := by
  induction l generalizing i with
  | nil => simp at h
  | cons x xs ih =>
    cases i with
    | zero => rfl
    | succ n => exact ih (by simpa using h)

theorem find_peaks_cons (w : Int) (ws st : List Int) :
    find_peaks (w :: ws) st =
      (st.map fun s => (w, s, peak_vectors_name w s)) ++ find_peaks ws st :=
  by simp [find_peaks]

theorem find_peaks_length (ws st : List Int) :
    (find_peaks ws st).length = ws.length * st.length := by
  induction ws with
  | nil => simp [find_peaks]
  | cons w rest ih =>
    rw [find_peaks_cons]
    simp only [List.length_append, List.length_map, List.length_cons, ih]
    ring

theorem find_peaks_get? (ws st : List Int) {i j : Nat}
    (hi : i < ws.length) (hj : j < st.length) :
    (find_peaks ws st).get? (i * st.length + j) =
      some (ws.getD i 0, st.getD j 0,
        peak_vectors_name (ws.getD i 0) (st.getD j 0)) := by
  induction ws generalizing i with
  | nil => simp at hi
  | cons w rest ih =>
    rw [find_peaks_cons]
    cases i with
    | zero =>
      simp only [Nat.zero_mul, Nat.zero_add]
      rw [List.get?_append (by simpa using hj), List.get?_map,
        get?_eq_some_getD st 0 hj]
      rfl
    | succ n =>
      have hidx : (n + 1) * st.length + j =
          st.length + (n * st.length + j) := by ring
      rw [hidx,
        List.get?_append_right (by simp)]
      have hsub : st.length + (n * st.length + j) - st.length =
          n * st.length + j := by omega
      rw [List.length_map, hsub]
      exact ih (by simpa using hi)

theorem count_find_peaks (ws st : List Int) (hw : ws.Nodup) (hs : st.Nodup)
    {w s : Int} (hmw : w ∈ ws) (hms : s ∈ st) :
    (find_peaks ws st).count (w, s, peak_vectors_name w s) = 1 := by
  induction ws with
  | nil => simp at hmw
  | cons w0 rest ih =>
    rw [find_peaks_cons, List.count_append]
    rcases List.nodup_cons.mp hw with ⟨hw0, hwrest⟩
    by_cases hww : w0 = w
    · subst hww
      have hblock : ∀ t : List Int, t.Nodup → s ∈ t →
          (t.map fun s0 => (w0, s0, peak_vectors_name w0 s0)).count
            (w0, s, peak_vectors_name w0 s) = 1 := by
        intro t
        induction t with
        | nil => intro _ hm; simp at hm
        | cons a ts iht =>
          intro hnd hm
          rcases List.nodup_cons.mp hnd with ⟨ha, hts⟩
          simp only [List.map_cons, List.count_cons]
          by_cases has : a = s
          · subst has
            have hz : (ts.map fun s0 =>
                (w0, s0, peak_vectors_name w0 s0)).count
                  (w0, a, peak_vectors_name w0 a) = 0 := by
              rw [List.count_eq_zero]
              intro hmem
              obtain ⟨s1, hs1, heq⟩ := List.mem_map.mp hmem
              have hsa : s1 = a :=
                congrArg (fun p : Int × Int × String => p.2.1) heq
              exact ha (hsa ▸ hs1)
            simp [hz]
          · have hm1 : s ∈ ts := by
              rcases List.mem_cons.mp hm with h1 | h1
              · exact absurd h1.symm has
              · exact h1
            simp [iht hts hm1, has, Prod.ext_iff]
      have hblock1 := hblock st hs hms
      have hrest : (find_peaks rest st).count
          (w0, s, peak_vectors_name w0 s) = 0 := by
        rw [List.count_eq_zero]
        intro hmem
        rw [find_peaks] at hmem
        obtain ⟨w1, hw1, hmem1⟩ := List.mem_flatMap.mp hmem
        obtain ⟨s1, hs1, heq⟩ := List.mem_map.mp hmem1
        have hw1w : w1 = w0 := congrArg Prod.fst heq
        exact hw0 (hw1w ▸ hw1)
      rw [hblock1, hrest]
    · have hmw1 : w ∈ rest := by
        rcases List.mem_cons.mp hmw with h1 | h1
        · exact absurd h1.symm hww
        · exact h1
      have hblock : (st.map fun s0 =>
          (w0, s0, peak_vectors_name w0 s0)).count
            (w, s, peak_vectors_name w s) = 0 := by
        rw [List.count_eq_zero]
        intro hmem
        obtain ⟨s1, hs1, heq⟩ := List.mem_map.mp hmem
        exact hww (congrArg Prod.fst heq)
      rw [hblock, ih hwrest hmw1]

/-- C9: `find_peaks` collects exactly one
(window size, slope threshold, region-set identifier) record per sweep
combination, laid out in window-major order (record number
`i * |thresholds| + j` belongs to window i and threshold j), and each
identifier is derived deterministically from the two parameter values as
`p_<window>_<threshold>_peaks`. -/
theorem find_peaks_records (ws st : List Int) (hw : ws.Nodup)
    (hs : st.Nodup) :
    (find_peaks ws st).length = ws.length * st.length ∧
    (∀ i j, i < ws.length → j < st.length →
      (find_peaks ws st).get? (i * st.length + j) =
        some (ws.getD i 0, st.getD j 0,
          peak_vectors_name (ws.getD i 0) (st.getD j 0))) ∧
    (∀ w ∈ ws, ∀ s ∈ st,
      (find_peaks ws st).count (w, s, peak_vectors_name w s) = 1) := by
  refine ⟨find_peaks_length ws st, ?_, ?_⟩
  · intro i j hi hj
    exact find_peaks_get? ws st hi hj
  · intro w hmw s hms
    exact count_find_peaks ws st hw hs hmw hms

/-- Witness for C9 on the sweep ([3, 5], [1, 2]). -/
theorem find_peaks_records_witness :
    (find_peaks [3, 5] [1, 2]).length = 2 * 2 ∧
    (∀ i j, i < ([3, 5] : List Int).length →
      j < ([1, 2] : List Int).length →
      (find_peaks [3, 5] [1, 2]).get? (i * ([1, 2] : List Int).length + j) =
        some (([3, 5] : List Int).getD i 0, ([1, 2] : List Int).getD j 0,
          peak_vectors_name (([3, 5] : List Int).getD i 0)
            (([1, 2] : List Int).getD j 0))) ∧
    (∀ w ∈ ([3, 5] : List Int), ∀ s ∈ ([1, 2] : List Int),
      (find_peaks [3, 5] [1, 2]).count (w, s, peak_vectors_name w s) = 1) :=
  find_peaks_records [3, 5] [1, 2] (by decide) (by decide)

theorem rowEntries_spec {t : String} {ti fi ni : Nat}
    {row : List (List Cell)} {es : List String}
    (h : rowEntries t ti fi ni row = some es) :
    es.length = row.length ∧
      ∀ j, es.get? j = (row.get? j).bind (errEntry t ti fi ni) := by
  induction row generalizing es with
  | nil =>
    rw [rowEntries] at h
    obtain rfl : ([] : List String) = es := Option.some.inj h
    exact ⟨rfl, fun j => by cases j <;> rfl⟩
  | cons cells rest ih =>
    rw [rowEntries] at h
    split at h
    · rename_i e es0 he hr
      obtain rfl : e :: es0 = es := Option.some.inj h
      obtain ⟨hlen, hall⟩ := ih hr
      refine ⟨by simp [hlen], fun j => ?_⟩
      cases j with
      | zero => simpa using he.symm
      | succ n => simpa using hall n
    · exact absurd h (by simp)

theorem csvDataRows_spec {t : String} {ti fi ni : Nat} :
    ∀ {wsizes : List Int} {grid : List (List (List Cell))}
      {rows : List (List String)},
      csvDataRows t ti fi ni wsizes grid = some rows →
      rows.length = grid.length ∧
        ∀ i, i < rows.length → ∃ entries,
          rows.get? i = some (toString (wsizes.getD i 0) :: entries) ∧
          entries.length = (grid.getD i []).length ∧
          ∀ j, entries.get? j =
            ((grid.getD i []).get? j).bind (errEntry t ti fi ni) := by
  intro wsizes grid
  induction grid generalizing wsizes with
  | nil =>
    intro rows h
    rw [csvDataRows] at h
    obtain rfl : ([] : List (List String)) = rows := Option.some.inj h
    exact ⟨rfl, fun i hi => absurd hi (by simp)⟩
  | cons row rest ih =>
    intro rows h
    cases wsizes with
    | nil => exact absurd h (by rw [csvDataRows]; simp)
    | cons wsz wrest =>
      rw [csvDataRows] at h
      split at h
      · rename_i es rs hes hrs
        obtain rfl : (toString wsz :: es) :: rs = rows := Option.some.inj h
        obtain ⟨hlen, hall⟩ := ih hrs
        refine ⟨by simp [hlen], fun i hi => ?_⟩
        cases i with
        | zero =>
          obtain ⟨hlen2, hall2⟩ := rowEntries_spec hes
          exact ⟨es, rfl, hlen2, hall2⟩
        | succ n =>
          have hn : n < rs.length := by simpa using hi
          obtain ⟨entries, h1, h2, h3⟩ := hall n hn
          exact ⟨entries, by simpa using h1, by simpa using h2,
            by simpa using h3⟩
      · exact absurd h (by simp)

theorem csvHeader_length (c : ResultsContainer) :
    (csvHeader c).length = c.slope_thresholds.length + 1 := by
  simp [csvHeader]

/-- C6: every row list `exportToCsv` successfully produces starts with the
header (the `window_size` label followed by one `threshold_` column per
slope threshold, hence #thresholds + 1 columns), and carries exactly one
data row per window size; row i starts with window size i (window-size
order) and its remaining entries are derived cell-by-cell from matrix row
i (threshold order). -/
theorem exportToCsv_shape (c : ResultsContainer) (errTag : String)
    (csv : List (List String))
    (hwf : c.window.length = c.window_sizes.length)
    (h : exportToCsv c errTag = some csv) :
    ∃ tp_index fp_index fn_index rows,
      index? c.error_values "true positives" = some tp_index ∧
      index? c.error_values "false positives" = some fp_index ∧
      index? c.error_values "false negatives" = some fn_index ∧
      csv = csvHeader c :: rows ∧
      (csvHeader c).length = c.slope_thresholds.length + 1 ∧
      rows.length = c.window_sizes.length ∧
      (∀ i, i < rows.length → ∃ entries,
        rows.get? i = some (toString (c.window_sizes.getD i 0) :: entries) ∧
        entries.length = (c.window.getD i []).length ∧
        ∀ j, entries.get? j =
          ((c.window.getD i []).get? j).bind
            (errEntry errTag tp_index fp_index fn_index)) := by
  rw [exportToCsv] at h
  cases hti : index? c.error_values "true positives" with
  | none => rw [hti] at h; exact absurd h (by simp)
  | some ti =>
    rw [hti] at h
    cases hfi : index? c.error_values "false positives" with
    | none => rw [hfi] at h; exact absurd h (by simp)
    | some fi =>
      rw [hfi] at h
      cases hni : index? c.error_values "false negatives" with
      | none => rw [hni] at h; exact absurd h (by simp)
      | some ni =>
        rw [hni] at h
        simp only [Option.bind_eq_bind', Option.some_bind',
          Option.pure_def] at h
        cases hrows : csvDataRows errTag ti fi ni c.window_sizes c.window
          with
        | none => rw [hrows] at h; exact absurd h (by simp)
        | some rows =>
          rw [hrows] at h
          simp only [Option.some_bind'] at h
          obtain rfl : csvHeader c :: rows = csv := Option.some.inj h
          obtain ⟨hlen, hall⟩ := csvDataRows_spec hrows
          exact ⟨ti, fi, ni, rows, rfl, rfl, rfl, rfl, csvHeader_length c,
            by rw [hlen, hwf], hall⟩

/-- Witness for C6: the summarize CSV of a 1-by-1 populated container. -/
theorem exportToCsv_shape_witness :
    ∃ tp_index fp_index fn_index rows,
      index? (ResultsContainer.mk [3] [PyVal.int 1]
        ["true positives", "false positives", "false negatives"]
        [[[Cell.int 10, Cell.int 1, Cell.int 0]]]).error_values
          "true positives" = some tp_index ∧
      index? (ResultsContainer.mk [3] [PyVal.int 1]
        ["true positives", "false positives", "false negatives"]
        [[[Cell.int 10, Cell.int 1, Cell.int 0]]]).error_values
          "false positives" = some fp_index ∧
      index? (ResultsContainer.mk [3] [PyVal.int 1]
        ["true positives", "false positives", "false negatives"]
        [[[Cell.int 10, Cell.int 1, Cell.int 0]]]).error_values
          "false negatives" = some fn_index ∧
      [["window_size", "threshold_1"], ["3", "1"]] =
        csvHeader (ResultsContainer.mk [3] [PyVal.int 1]
          ["true positives", "false positives", "false negatives"]
          [[[Cell.int 10, Cell.int 1, Cell.int 0]]]) :: rows ∧
      (csvHeader (ResultsContainer.mk [3] [PyVal.int 1]
        ["true positives", "false positives", "false negatives"]
        [[[Cell.int 10, Cell.int 1, Cell.int 0]]])).length =
        (ResultsContainer.mk [3] [PyVal.int 1]
          ["true positives", "false positives", "false negatives"]
          [[[Cell.int 10, Cell.int 1, Cell.int 0]]]).slope_thresholds.length
          + 1 ∧
      rows.length = (ResultsContainer.mk [3] [PyVal.int 1]
        ["true positives", "false positives", "false negatives"]
        [[[Cell.int 10, Cell.int 1, Cell.int 0]]]).window_sizes.length ∧
      (∀ i, i < rows.length → ∃ entries,
        rows.get? i = some (toString ((ResultsContainer.mk [3] [PyVal.int 1]
          ["true positives", "false positives", "false negatives"]
          [[[Cell.int 10, Cell.int 1, Cell.int 0]]]).window_sizes.getD i 0)
            :: entries) ∧
        entries.length = ((ResultsContainer.mk [3] [PyVal.int 1]
          ["true positives", "false positives", "false negatives"]
          [[[Cell.int 10, Cell.int 1, Cell.int 0]]]).window.getD i
            []).length ∧
        ∀ j, entries.get? j =
          (((ResultsContainer.mk [3] [PyVal.int 1]
            ["true positives", "false positives", "false negatives"]
            [[[Cell.int 10, Cell.int 1, Cell.int 0]]]).window.getD i
              []).get? j).bind
            (errEntry "summarize" tp_index fp_index fn_index)) :=
  exportToCsv_shape (ResultsContainer.mk [3] [PyVal.int 1]
    ["true positives", "false positives", "false negatives"]
    [[[Cell.int 10, Cell.int 1, Cell.int 0]]]) "summarize"
    [["window_size", "threshold_1"], ["3", "1"]] (by decide) (by decide)

theorem parse_error_values_all_base (fl : Flags) (ht : fl.t = true)
    (hf : fl.f = true) (hn : fl.n = true) (hl : fl.l = false) :
    parse_error_values fl =
      ["true positives", "false positives", "false negatives"] ++
        (if fl.s then ["summarize"] else []) := by
  obtain ⟨t0, f0, n0, s0, l0⟩ := fl
  simp only at ht hf hn hl
  subst ht
  subst hf
  subst hn
  subst hl
  cases s0 <;> decide

theorem errEntry_some_of_cells {ti fi ni : Nat} {cells : List Cell}
    (h0 : ∃ a, cells.get? ti = some (Cell.int a))
    (h1 : ∃ b, cells.get? fi = some (Cell.int b))
    (h2 : ∃ d, cells.get? ni = some (Cell.int d))
    {tag : String}
    (htag : tag = "summarize" ∨ tag = "true positives" ∨
      tag = "false positives" ∨ tag = "false negatives") :
    (errEntry tag ti fi ni cells).isSome := by
  obtain ⟨a, ha⟩ := h0
  obtain ⟨b, hb⟩ := h1
  obtain ⟨d, hd⟩ := h2
  rcases htag with rfl | rfl | rfl | rfl
  · rw [errEntry, if_pos rfl, ha, hb, hd]
    rfl
  · rw [errEntry, if_neg (by decide), if_pos rfl, ha]
    rfl
  · rw [errEntry, if_neg (by decide), if_neg (by decide), if_pos rfl, hb]
    rfl
  · rw [errEntry, if_neg (by decide), if_neg (by decide),
      if_neg (by decide), if_pos rfl, hd]
    rfl

theorem rowEntries_isSome {tag : String} {ti fi ni : Nat}
    {row : List (List Cell)}
    (h : ∀ cells ∈ row, (errEntry tag ti fi ni cells).isSome) :
    (rowEntries tag ti fi ni row).isSome := by
  induction row with
  | nil => rfl
  | cons cells rest ih =>
    rw [rowEntries]
    obtain ⟨e, he⟩ := Option.isSome_iff_exists.mp
      (h cells (List.mem_cons_self cells rest))
    obtain ⟨es, hes⟩ := Option.isSome_iff_exists.mp
      (ih fun c0 hc0 => h c0 (List.mem_cons_of_mem cells hc0))
    rw [he, hes]
    rfl

theorem csvDataRows_isSome {tag : String} {ti fi ni : Nat} :
    ∀ {wsizes : List Int} {grid : List (List (List Cell))},
      grid.length ≤ wsizes.length →
      (∀ row ∈ grid, ∀ cells ∈ row,
        (errEntry tag ti fi ni cells).isSome) →
      (csvDataRows tag ti fi ni wsizes grid).isSome := by
  intro wsizes grid
  induction grid generalizing wsizes with
  | nil => intro _ _; rw [csvDataRows]; rfl
  | cons row rest ih =>
    intro hlen hall
    cases wsizes with
    | nil => simp at hlen
    | cons wsz wrest =>
      rw [csvDataRows]
      obtain ⟨es, hes⟩ := Option.isSome_iff_exists.mp
        (rowEntries_isSome (hall row (List.mem_cons_self row rest)))
      obtain ⟨rs, hrs⟩ := Option.isSome_iff_exists.mp
        (ih (by simpa using hlen)
          (fun r0 hr0 => hall r0 (List.mem_cons_of_mem row hr0)))
      rw [hes, hrs]
      rfl

theorem exportToCsv_isSome {c : ResultsContainer} {tag : String}
    {ti fi ni : Nat}
    (hti : index? c.error_values "true positives" = some ti)
    (hfi : index? c.error_values "false positives" = some fi)
    (hni : index? c.error_values "false negatives" = some ni)
    (hrows : (csvDataRows tag ti fi ni c.window_sizes c.window).isSome) :
    (exportToCsv c tag).isSome := by
  obtain ⟨rows, hr⟩ := Option.isSome_iff_exists.mp hrows
  rw [exportToCsv]
  simp [hti, hfi, hni, hr]

theorem exportAll_spec {c : ResultsContainer} {directory : String} :
    ∀ {tags : List String},
      (∀ ef ∈ tags, (exportToCsv c ef).isSome) →
      ∃ files, exportAll c directory tags = some files ∧
        files.map Prod.fst = tags.map (csvFileName directory) := by
  intro tags
  induction tags with
  | nil => intro _; exact ⟨[], rfl, rfl⟩
  | cons ef rest ih =>
    intro h
    obtain ⟨csv, hcsv⟩ := Option.isSome_iff_exists.mp
      (h ef (List.mem_cons_self ef rest))
    obtain ⟨more, hmore, hnames⟩ :=
      ih fun e0 he0 => h e0 (List.mem_cons_of_mem ef he0)
    refine ⟨(csvFileName directory ef, csv) :: more, ?_, ?_⟩
    · rw [exportAll, hcsv, hmore]
    · simp [hnames]

/-- C5, counterexample: with only the true-positives flag selected, the
selection is nonempty but the Exporter writes no complete set of files:
`exportToCsv` starts by resolving the positions of all three base error
kinds in the container's error-value axis, and the lookup of
`false positives` raises ValueError. -/
theorem exporter_subset_selection_fails :
    parse_error_values
        { t := true, f := false, n := false, s := false, l := false } =
      ["true positives"] ∧
    exporter_csvFiles
      (mkResultsContainer [3] [1] (parse_error_values
        { t := true, f := false, n := false, s := false, l := false }))
      { t := true, f := false, n := false, s := false, l := false }
      "/out" = none := by
  decide

set_option maxHeartbeats 2000000 in
/-- C5, amended: when the flags select all three base error kinds (the
summarize flag free, the leave-maps flag unset), the container's
error-value axis is the parsed flag list, the matrix is no longer than the
window-size axis, the three base cells of every cell list hold int counts
and the output directory is nonempty, the Exporter writes one CSV per
selected error kind, named after that kind (path
`directory + kind + ".csv"` with spaces replaced by underscores). -/
theorem exporter_writes_selected_kinds (fl : Flags) (c : ResultsContainer)
    (export_directory : String)
    (ht : fl.t = true) (hf : fl.f = true) (hn : fl.n = true)
    (hl : fl.l = false)
    (hev : c.error_values = parse_error_values fl)
    (hwlen : c.window.length ≤ c.window_sizes.length)
    (hcells : ∀ row ∈ c.window, ∀ cells ∈ row,
      (∃ a, cells.get? 0 = some (Cell.int a)) ∧
      (∃ b, cells.get? 1 = some (Cell.int b)) ∧
      (∃ d, cells.get? 2 = some (Cell.int d)))
    (hdir : export_directory ≠ "") :
    ∃ files, exporter_csvFiles c fl export_directory = some files ∧
      files.map Prod.fst =
        (parse_error_values fl).map
          (csvFileName (normDir export_directory)) := by
  have hpv := parse_error_values_all_base fl ht hf hn hl
  have hti : index? c.error_values "true positives" = some 0 := by
    rw [hev, hpv]
    cases fl.s <;> decide
  have hfi : index? c.error_values "false positives" = some 1 := by
    rw [hev, hpv]
    cases fl.s <;> decide
  have hni : index? c.error_values "false negatives" = some 2 := by
    rw [hev, hpv]
    cases fl.s <;> decide
  have hexp : ∀ ef ∈ parse_error_values fl, (exportToCsv c ef).isSome := by
    intro ef hef
    have htag : ef = "summarize" ∨ ef = "true positives" ∨
        ef = "false positives" ∨ ef = "false negatives" := by
      rw [hpv] at hef
      cases hfs : fl.s <;> rw [hfs] at hef <;> simp at hef <;> tauto
    refine exportToCsv_isSome hti hfi hni (csvDataRows_isSome hwlen ?_)
    intro row hrow cells hc
    obtain ⟨h0, h1, h2⟩ := hcells row hrow cells hc
    exact errEntry_some_of_cells h0 h1 h2 htag
  rw [exporter_csvFiles, if_neg hdir]
  exact exportAll_spec hexp

/-- Witness for the amended C5: all four error kinds selected on a 1-by-1
populated container. -/
theorem exporter_writes_selected_kinds_witness :
    ∃ files, exporter_csvFiles
        (ResultsContainer.mk [3] [PyVal.int 1]
          (parse_error_values
            { t := true, f := true, n := true, s := true, l := false })
          [[[Cell.int 10, Cell.int 1, Cell.int 0, Cell.empty]]])
        { t := true, f := true, n := true, s := true, l := false }
        "/out" = some files ∧
      files.map Prod.fst =
        (parse_error_values
          { t := true, f := true, n := true, s := true, l := false }).map
          (csvFileName (normDir "/out")) :=
  exporter_writes_selected_kinds
    { t := true, f := true, n := true, s := true, l := false }
    (ResultsContainer.mk [3] [PyVal.int 1]
      (parse_error_values
        { t := true, f := true, n := true, s := true, l := false })
      [[[Cell.int 10, Cell.int 1, Cell.int 0, Cell.empty]]])
    "/out" rfl rfl rfl rfl rfl (by decide)
    (by
      intro row hrow cells hc
      rw [List.mem_singleton] at hrow
      subst hrow
      rw [List.mem_singleton] at hc
      subst hc
      exact ⟨⟨10, rfl⟩, ⟨1, rfl⟩, ⟨0, rfl⟩⟩)
    (by decide)

theorem mapOpt_eq_map {α β : Type u} (f : α → Option β) (g : α → β)
    (l : List α) (h : ∀ x ∈ l, f x = some (g x)) :
    mapOpt f l = some (l.map g) := by
  induction l with
  | nil => rfl
  | cons a as ih =>
    rw [mapOpt, h a (List.mem_cons_self a as),
      ih fun x hx => h x (List.mem_cons_of_mem a hx)]
    rfl

/-- C10: when `Exporter.stdout` completes on a container whose
slope-threshold axis holds the original integers, the aliased in-place
mutation leaves the axis as two spacer strings followed by the
seven-wide padded string of each threshold — so it no longer equals the
original integer axis — while the window-size axis, the error-value axis
and the results matrix are unchanged. -/
theorem stdout_mutates_thresholds (c c' : ResultsContainer)
    (hthr : ∀ x ∈ c.slope_thresholds, ∃ n, x = PyVal.int n)
    (h : stdout_run c = some c') :
    c'.slope_thresholds =
      PyVal.str "   " :: PyVal.str "       " ::
        c.slope_thresholds.map (fun t => PyVal.str (pyLjust (pyStr t) 7)) ∧
    c'.slope_thresholds ≠ c.slope_thresholds ∧
    c'.window_sizes = c.window_sizes ∧
    c'.error_values = c.error_values ∧
    c'.window = c.window := by
  have hmap : mapOpt (fun t => setField t 7) c.slope_thresholds =
      some (c.slope_thresholds.map fun t => pyLjust (pyStr t) 7) := by
    apply mapOpt_eq_map
    intro x hx
    obtain ⟨n, rfl⟩ := hthr x hx
    rfl
  rw [stdout_run] at h
  cases hti : index? c.error_values "true positives" with
  | none => rw [hti] at h; exact absurd h (by simp)
  | some ti =>
    rw [hti] at h
    cases hfi : index? c.error_values "false positives" with
    | none => rw [hfi] at h; exact absurd h (by simp)
    | some fi =>
      rw [hfi] at h
      cases hni : index? c.error_values "false negatives" with
      | none => rw [hni] at h; exact absurd h (by simp)
      | some ni =>
        rw [hni] at h
        simp only [Option.bind_eq_bind', Option.some_bind',
          Option.pure_def] at h
        rw [hmap] at h
        simp only [Option.some_bind'] at h
        cases hok : stdoutRowsOk ti fi ni c.window_sizes c.window with
        | false => rw [hok] at h; exact absurd h (by simp)
        | true =>
          rw [hok] at h
          simp only [if_pos] at h
          obtain rfl := (Option.some.inj h).symm
          refine ⟨by simp [Function.comp], ?_, rfl, rfl, rfl⟩
          intro heq
          have hlen := congrArg List.length heq
          simp only [List.length_cons, List.length_map] at hlen
          omega

/-- Witness for C10: a container with threshold axis [12]; after stdout
the axis is the two spacers followed by the padded string 12. -/
theorem stdout_mutates_thresholds_witness :
    (ResultsContainer.mk [5]
      [PyVal.str "   ", PyVal.str "       ", PyVal.str "12     "]
      ["true positives", "false positives", "false negatives"]
      [[[Cell.int 3, Cell.int 2, Cell.int 1]]]).slope_thresholds =
      PyVal.str "   " :: PyVal.str "       " ::
        (ResultsContainer.mk [5] [PyVal.int 12]
          ["true positives", "false positives", "false negatives"]
          [[[Cell.int 3, Cell.int 2, Cell.int 1]]]).slope_thresholds.map
          (fun t => PyVal.str (pyLjust (pyStr t) 7)) ∧
    (ResultsContainer.mk [5]
      [PyVal.str "   ", PyVal.str "       ", PyVal.str "12     "]
      ["true positives", "false positives", "false negatives"]
      [[[Cell.int 3, Cell.int 2, Cell.int 1]]]).slope_thresholds ≠
      (ResultsContainer.mk [5] [PyVal.int 12]
        ["true positives", "false positives", "false negatives"]
        [[[Cell.int 3, Cell.int 2, Cell.int 1]]]).slope_thresholds ∧
    (ResultsContainer.mk [5]
      [PyVal.str "   ", PyVal.str "       ", PyVal.str "12     "]
      ["true positives", "false positives", "false negatives"]
      [[[Cell.int 3, Cell.int 2, Cell.int 1]]]).window_sizes =
      (ResultsContainer.mk [5] [PyVal.int 12]
        ["true positives", "false positives", "false negatives"]
        [[[Cell.int 3, Cell.int 2, Cell.int 1]]]).window_sizes ∧
    (ResultsContainer.mk [5]
      [PyVal.str "   ", PyVal.str "       ", PyVal.str "12     "]
      ["true positives", "false positives", "false negatives"]
      [[[Cell.int 3, Cell.int 2, Cell.int 1]]]).error_values =
      (ResultsContainer.mk [5] [PyVal.int 12]
        ["true positives", "false positives", "false negatives"]
        [[[Cell.int 3, Cell.int 2, Cell.int 1]]]).error_values ∧
    (ResultsContainer.mk [5]
      [PyVal.str "   ", PyVal.str "       ", PyVal.str "12     "]
      ["true positives", "false positives", "false negatives"]
      [[[Cell.int 3, Cell.int 2, Cell.int 1]]]).window =
      (ResultsContainer.mk [5] [PyVal.int 12]
        ["true positives", "false positives", "false negatives"]
        [[[Cell.int 3, Cell.int 2, Cell.int 1]]]).window :=
  stdout_mutates_thresholds
    (ResultsContainer.mk [5] [PyVal.int 12]
      ["true positives", "false positives", "false negatives"]
      [[[Cell.int 3, Cell.int 2, Cell.int 1]]])
    (ResultsContainer.mk [5]
      [PyVal.str "   ", PyVal.str "       ", PyVal.str "12     "]
      ["true positives", "false positives", "false negatives"]
      [[[Cell.int 3, Cell.int 2, Cell.int 1]]])
    (by
      intro x hx
      rw [List.mem_singleton] at hx
      subst hx
      exact ⟨12, rfl⟩)
    (by decide)

end PeakParameterizer
